import Mathlib

/-!
Verification development for `admin/check_node_performance/single_run.py`,
a benchmark orchestration script.  The Python functions are shallowly
embedded as Lean definitions; external library calls (scheduler, deployment,
parallel remote execution, host attribute lookups) are parameters collected
in an `Env` structure, and the observable behaviour of a run is a trace of
events together with an outcome (normal return, interpreter exit, or an
uncaught Python exception).
-/

deriving instance DecidableEq for Except

/-- Python exception kinds that the embedded code can raise. -/
inductive PyErr where
  | indexError
  | valueError
  | attributeError
deriving DecidableEq, Repr

/-- Result of running a piece of the script: normal value, a call of the
builtin `exit(code)` (bare `exit()` in Python is `SystemExit(None)`, and the
interpreter then terminates with status 0), or an uncaught exception (the
interpreter then terminates with status 1). -/
inductive Outcome (α : Type) where
  | ok (a : α)
  | exits (code : Nat)
  | raises (e : PyErr)
deriving DecidableEq, Repr

/-- Final interpreter exit status for an outcome of the whole program. -/
def finalStatus : Outcome Unit → Nat
  | .ok _ => 0
  | .exits c => c
  | .raises _ => 1

/-- Python truthiness of an optional integer (models `if not job_id:`,
where `job_id` is `None` or an int). -/
def pyTruthy : Option Nat → Bool
  | none => false
  | some n => n != 0

/-- A single-quote character as a string (used in embedded shell commands). -/
def sqc : String := (Char.ofNat 39).toString

/-- The shell pipeline suffix `_sys_grep` of the source, line 18. -/
def _sys_grep : String :=
  "| grep \"execution time\" | awk " ++ sqc ++ "\x7bprint $4\x7d" ++ sqc ++
  " | cut -d / -f 1"

/-- Python `s.split(sep)` for a one-character separator: splits at every
occurrence, keeping empty groups, so that `pySplit c l` is never `[]`. -/
def pySplit (sep : Char) : List Char → List (List Char)
  | [] => [[]]
  | c :: rest =>
    if c == sep then [] :: pySplit sep rest
    else
      match pySplit sep rest with
      | [] => [[c]]
      | g :: gs => (c :: g) :: gs

/-- The six characters stripped by Python `str.strip()`. -/
def pyIsSpace (c : Char) : Bool :=
  c == ' ' || c == '\t' || c == '\n' || c == '\r' || c == '\x0b' || c == '\x0c'

/-- Python `str.strip()` on a character list. -/
def trimChars (l : List Char) : List Char :=
  ((l.dropWhile pyIsSpace).reverse.dropWhile pyIsSpace).reverse

/-- Value of a nonempty list of decimal digits. -/
def digitsVal (l : List Char) : Int :=
  l.foldl (fun acc c => 10 * acc + ((c.toNat : Int) - 48)) 0

/-- Python `int(s)` on a string given as a character list: strips
whitespace, allows one leading sign, then requires a nonempty run of
decimal digits; anything else raises `ValueError`. -/
def pyIntChars (l : List Char) : Except PyErr Int :=
  match trimChars l with
  | '+' :: rest =>
    if !rest.isEmpty && rest.all Char.isDigit then .ok (digitsVal rest)
    else .error .valueError
  | '-' :: rest =>
    if !rest.isEmpty && rest.all Char.isDigit then .ok (-(digitsVal rest))
    else .error .valueError
  | t =>
    if !t.isEmpty && t.all Char.isDigit then .ok (digitsVal t)
    else .error .valueError

/-- The sort key of `get_hosts` (lines 173 to 174) and `setup_hosts`
(lines 139 to 140):
`lambda h: (h.split('.', 1)[0].split('-')[0], int(h.split('.', 1)[0].split('-')[1]))`.
Indexing `[1]` on a split with no hyphen raises `IndexError`; `int` on a
non-numeric part raises `ValueError`. -/
def keyOfHost (h : String) : Except PyErr (List Char × Int) :=
  let base := (pySplit '.' h.data).headD []
  let parts := pySplit '-' base
  match parts.get? 1 with
  | none => .error .indexError
  | some p1 =>
    match pyIntChars p1 with
    | .error e => .error e
    | .ok n => .ok (parts.headD [], n)

/-- Strict lexicographic comparison of character lists, as Python compares
strings. -/
def charListLt : List Char → List Char → Bool
  | [], [] => false
  | [], _ :: _ => true
  | _ :: _, [] => false
  | a :: as, b :: bs => if a < b then true else if a == b then charListLt as bs else false

/-- Non-strict comparison of sort keys, as Python compares the
`(string, int)` tuples produced by the sort key. -/
def keyLe (a b : List Char × Int) : Bool :=
  charListLt a.1 b.1 || (a.1 == b.1 && decide (a.2 ≤ b.2))

/-- Compute the sort keys of all hosts in list order; the first failure
raises, as CPython `list.sort(key=...)` computes keys left to right. -/
def hostsKeys : List String → Except PyErr (List (String × (List Char × Int)))
  | [] => .ok []
  | h :: t =>
    match keyOfHost h with
    | .error e => .error e
    | .ok k =>
      match hostsKeys t with
      | .error e => .error e
      | .ok rest => .ok ((h, k) :: rest)

/-- Comparison on keyed hosts. -/
def pairLe (a b : String × (List Char × Int)) : Bool := keyLe a.2 b.2

/-- Comparison on keyed hosts, as a decidable relation. -/
def pairRel (a b : String × (List Char × Int)) : Prop := pairLe a b = true

instance : DecidableRel pairRel := fun a b => by unfold pairRel; infer_instance

/-- `hosts.sort(key=lambda h: ...)` of the source: a stable sort by the
host key (CPython sort is stable, and any two stable sorts by the same key
agree), raising when some key computation raises. -/
def sortHosts (hosts : List String) : Except PyErr (List String) :=
  match hostsKeys hosts with
  | .error e => .error e
  | .ok keyed => .ok ((List.insertionSort pairRel keyed).map Prod.fst)

/-- All host keys are computable without an exception. -/
def keysOk (hosts : List String) : Bool :=
  hosts.all fun h =>
    match keyOfHost h with
    | .ok _ => true
    | .error _ => false

/-- Total version of the host key (defaulting on failure); used only to
state ordering properties of lists whose keys are known to compute. -/
def keyD (h : String) : List Char × Int :=
  match keyOfHost h with
  | .ok k => k
  | .error _ => ([], 0)

/-- Ordering of two hosts by their keys. -/
def hostLe (a b : String) : Prop := keyLe (keyD a) (keyD b) = true

/-- True when the first list is an initial segment of the second. -/
def startsWithL : List Char → List Char → Bool
  | [], _ => true
  | _ :: _, [] => false
  | p :: ps, h :: hs => p == h && startsWithL ps hs

/-- True when `pat` occurs contiguously inside the second list. -/
def containsSubL (pat : List Char) : List Char → Bool
  | [] => pat.isEmpty
  | h :: t => startsWithL pat (h :: t) || containsSubL pat t

/-- Substring test on strings: `containsS hay pat` holds when `pat` occurs
inside `hay`. -/
def containsS (hay pat : String) : Bool := containsSubL pat.data hay.data

/-- Field separator of the default awk input splitting: blank or tab. -/
def isAwkSp (c : Char) : Bool := c == ' ' || c == '\t'

/-- Helper for `splitWs`, carrying the reversed current field. -/
def splitWsAux : List Char → List Char → List (List Char)
  | [], acc => if acc.isEmpty then [] else [acc.reverse]
  | c :: rest, acc =>
    if isAwkSp c then
      if acc.isEmpty then splitWsAux rest []
      else acc.reverse :: splitWsAux rest []
    else splitWsAux rest (c :: acc)

/-- Split a line into its whitespace-delimited fields, as awk does with the
default field separator: leading, trailing and repeated blanks are ignored. -/
def splitWs (l : List Char) : List (List Char) := splitWsAux l []

/-- The stage `grep "execution time"` of `_sys_grep`: keep the lines that
contain the pattern. -/
def grepStage (lines : List String) : List String :=
  lines.filter fun l => containsS l "execution time"

/-- The stage `awk` printing field 4 of `_sys_grep`: for every input line
print the fourth field; a line with fewer than four fields prints as the
empty string. -/
def awkStage (lines : List String) : List String :=
  lines.map fun l => String.mk ((splitWs l.data).getD 3 [])

/-- The stage `cut -d / -f 1` of `_sys_grep`: keep the part of each line
before the first slash; a line with no slash is kept whole. -/
def cutStage (lines : List String) : List String :=
  lines.map fun l => String.mk (l.data.takeWhile fun c => c != '/')

/-- The whole extraction pipeline of `_sys_grep` applied to the lines of a
host standard output. -/
def sysGrepPipeline (lines : List String) : List String :=
  cutStage (awkStage (grepStage lines))

/-- The extraction described by the spec, stated directly on one line: take
the fourth whitespace-delimited field of the line and truncate it at the
first slash. -/
def specExtract (line : String) : String :=
  String.mk (((splitWs line.data).getD 3 []).takeWhile fun c => c != '/')

/-- The command string built by `cpu` (lines 56 to 57). -/
def cpuCmd (n_core max_prime : Nat) : String :=
  "sysbench --num-threads=" ++ toString n_core ++ " --test=cpu run --cpu-max-prime=" ++
  toString max_prime ++ " " ++ _sys_grep

/-- The command string built by `memory` (lines 67 to 68). -/
def memCmd (mem_size : Nat) : String :=
  "sysbench --test=memory --memory-block-size=1M --memory-total-size=" ++
  toString mem_size ++ " run" ++ _sys_grep

/-- The command template of `fio` (lines 78 to 80) after substitution of
`$action` and `$grep`; the thread count was already interpolated with `%s`. -/
def fioCmd (n_core : Nat) (action grepSuffix : String) : String :=
  "cd /tmp && sysbench --num-threads=" ++ toString n_core ++
  " --test=fileio --file-total-size=10G --file-test-mode=seqwr " ++ action ++ " " ++ grepSuffix

/-- The ping command of `latency` (lines 110 to 111). -/
def pingCmd (n_ping : Nat) (d : String) : String :=
  "ping -c " ++ toString n_ping ++ " " ++ d ++ " | tail -1| awk " ++ sqc ++
  "\x7bprint $4\x7d" ++ sqc ++ " | cut -d " ++ sqc ++ "/" ++ sqc ++ " -f 2"

/-- The SSH configuration command of `setup_hosts` (lines 145 to 146). -/
def sshConfCmd : String :=
  "echo \"Host *\" >> /root/.ssh/config ;echo \" StrictHostKeyChecking no\" >> /root/.ssh/config; "

/-- The package install command of `setup_hosts` (line 153). -/
def aptCmd : String := "apt-get update && apt-get install -y sysbench"

/-- The OAR resources string of `_default_job` (lines 196 to 197). -/
def resourcesStr (cluster : String) (nodes : Nat) : String :=
  "\x7bcluster=" ++ sqc ++ cluster ++ sqc ++ "\x7d/nodes=" ++ toString nodes

/-- A completed remote process: host address and standard output. -/
structure Proc where
  host : String
  stdout : String
deriving DecidableEq, Repr

/-- The external world of the script: scheduler, deployment service,
parallel remote execution and reference-API host attributes.  All are
read-only during a run. -/
structure Env where
  /-- `get_job_by_name(name)`: optional existing job id, and its site. -/
  getJobByName : String → Option Nat × String
  /-- the pair `oarsub(jobs_specs)[0]` produced by a new submission. -/
  oarsubResult : Nat × String
  /-- the node count `resources[cluster]` found for the first free slot. -/
  slotNodes : Nat
  /-- `get_resource_attributes(...)['assigned_nodes']` for a job and site. -/
  assignedNodes : Nat → String → List String
  /-- whether a host deploys successfully. -/
  deployOk : String → Bool
  /-- aggregate `.ok` status of a `TaktukRemote(cmd, hosts).run()`. -/
  okOf : String → List String → Bool
  /-- standard output of a command on a host. -/
  stdoutOf : String → String → String
  /-- `get_host_attributes(h)['architecture']['smt_size']`. -/
  smtSize : String → Nat
  /-- `get_host_attributes(h)['main_memory']['ram_size']`. -/
  ramSize : String → Nat
  /-- `get_host_network_equipments(h)`, already as strings. -/
  netEquip : String → List String
  /-- `get_host_site(h)`. -/
  hostSite : String → String
  /-- `get_host_shortname(h)`. -/
  shortname : String → String

/-- Observable events of a run, in program order. -/
inductive Event where
  /-- a `TaktukRemote(cmd, hosts).run()` call with one shared command. -/
  | taktuk (cmd : String) (hosts : List String)
  /-- a `TaktukRemote` call with substituted per-process commands. -/
  | taktukCmds (cmds : List String) (hosts : List String)
  /-- a `logger.info` message (styling and argument interpolation elided). -/
  | info (msg : String)
  /-- a `logger.error` message. -/
  | error (msg : String)
  /-- the `logger.warning` of `setup_hosts`, naming the undeployed hosts. -/
  | warning (undeployed : List String)
  /-- an `oarsub` submission: job name, job type, resources, walltime. -/
  | oarsub (name jobType resources walltime : String)
  /-- `wait_oar_job_start(job_id, site)`. -/
  | waitJob (jobId : Nat) (site : String)
  /-- the `get_resource_attributes` query describing a job. -/
  | resourceQuery (site : String) (jobId : Nat)
  /-- a `deploy(Deployment(hosts=...), num_tries=..., check_deployed_command=...)` call. -/
  | deployCall (hosts : List String) (numTries : Nat) (check : Bool)
  /-- one output line of `_print_bench_result`. -/
  | benchLine (name host out : String)
  /-- one `LAT source->destination` line of `latency`. -/
  | latLine (src dst out : String)
deriving DecidableEq, Repr

/-- The per-host processes created by `TaktukRemote(cmd, hosts)`: one
process per host, in order. -/
def mkProcs (env : Env) (cmd : String) (hosts : List String) : List Proc :=
  hosts.map fun h => ⟨h, env.stdoutOf cmd h⟩

/-- `_print_bench_result(act, name)` (lines 180 to 186): one info line per
process with the benchmark name, the host shortname and the stripped
standard output. -/
def benchLines (env : Env) (name : String) (procs : List Proc) : List Event :=
  procs.map fun p =>
    Event.benchLine name (env.shortname p.host) (String.mk (trimChars p.stdout.data))

/-- The attribute access `p.stout` (lines 85 and 96).  The execo `Process`
class has an attribute `stdout` but no `stout`, so this access raises
`AttributeError`; the same file correctly writes `p.stdout` at lines 117
and 186. -/
def procStout (_ : Proc) : Except PyErr String := .error .attributeError

/-- The joined comprehension
`'\n'.join([p.host.address + ': ' + p.stout.strip() for p in procs])`:
it raises as soon as one process is present. -/
def stoutJoin : List Proc → Except PyErr String
  | [] => .ok ""
  | p :: rest => do
    let s ← procStout p
    let r ← stoutJoin rest
    pure (p.host ++ ": " ++ s ++ (if rest.isEmpty then "" else "\n") ++ r)

/-- Sequencing of two embedded fragments: the second runs only when the
first returns normally; traces concatenate. -/
def andThen {α β : Type} :
    List Event × Outcome α → (α → List Event × Outcome β) → List Event × Outcome β
  | (tr, .ok a), f => (tr ++ (f a).1, (f a).2)
  | (tr, .exits c), _ => (tr, .exits c)
  | (tr, .raises e), _ => (tr, .raises e)

/-- `cpu(hosts, max_prime=100000)` (lines 53 to 61).  `hosts[0]` on an
empty list raises `IndexError` before anything is logged. -/
def cpu (env : Env) (hosts : List String) (max_prime : Nat := 100000) :
    List Event × Outcome Unit :=
  match hosts with
  | [] => ([], .raises .indexError)
  | h0 :: _ =>
    let cmd := cpuCmd (env.smtSize h0) max_prime
    ([Event.info "Launching CPU benchmark", Event.taktuk cmd hosts] ++
      benchLines env "CPU" (mkProcs env cmd hosts), .ok ())

/-- `memory(hosts)` (lines 64 to 72). -/
def memory (env : Env) (hosts : List String) : List Event × Outcome Unit :=
  match hosts with
  | [] => ([], .raises .indexError)
  | h0 :: _ =>
    let cmd := memCmd (env.ramSize h0)
    ([Event.info "Launching MEM benchmark", Event.taktuk cmd hosts] ++
      benchLines env "MEM" (mkProcs env cmd hosts), .ok ())

/-- `fio(hosts)` (lines 75 to 99): prepare, run and cleanup phases with
explicit aggregate status checks after prepare and after cleanup.  When a
check fails, the code builds an error message from `p.stout` of every
process, which raises `AttributeError` unless the process list is empty;
with an empty process list the message is logged and bare `exit()` is
reached. -/
def fio (env : Env) (hosts : List String) : List Event × Outcome Unit :=
  match hosts with
  | [] => ([], .raises .indexError)
  | h0 :: _ =>
    let n := env.smtSize h0
    let prepCmd := fioCmd n "prepare" ""
    let runCmd := fioCmd n "run" _sys_grep
    let cleanCmd := fioCmd n "cleanup" ""
    let ev0 := [Event.info "Preparing FIO benchmark", Event.taktuk prepCmd hosts]
    if env.okOf prepCmd hosts then
      let ev1 := ev0 ++ [Event.info "Launching FIO benchmark", Event.taktuk runCmd hosts] ++
        benchLines env "FIO" (mkProcs env runCmd hosts) ++
        [Event.info "Cleaning FIO benchmark", Event.taktuk cleanCmd hosts]
      if env.okOf cleanCmd hosts then (ev1, .ok ())
      else
        match stoutJoin (mkProcs env cleanCmd hosts) with
        | .error e => (ev1, .raises e)
        | .ok m =>
          (ev1 ++ [Event.error ("Unable to cleant the data for FIO benchmark\n" ++ m)], .exits 0)
    else
      match stoutJoin (mkProcs env prepCmd hosts) with
      | .error e => (ev0, .raises e)
      | .ok m =>
        (ev0 ++ [Event.error ("Unable to prepare the data for FIO benchmark\n" ++ m)], .exits 0)

/-- The body of the outer loop of `latency` for one source host `c`, given
the destination list `dests` (lines 105 to 117).  After the inner loop
`for d in dests: ...` the loop variable `d` is left holding the last
element of `dests`, and the log lines then use this leaked `d` as the
destination label of every process. -/
def latencyFor (env : Env) (nPing : Nat) (dests : List String) (c : String) : List Event :=
  let cmds := (dests.filter fun d => d != c).map (pingCmd nPing)
  let dLast := dests.getLastD ""
  [Event.taktukCmds cmds (List.replicate cmds.length c)] ++
    (dests.filter fun d => d != c).map fun d =>
      Event.latLine (env.shortname c) (env.shortname dLast)
        (String.mk (trimChars (env.stdoutOf (pingCmd nPing d) c).data))

/-- `latency(hosts, n_ping=10)` (lines 102 to 117).  `hosts[0]` and the
indexing `[0]` of the network equipment list can raise `IndexError`. -/
def latency (env : Env) (hosts : List String) (n_ping : Nat := 10) :
    List Event × Outcome Unit :=
  match hosts with
  | [] => ([], .raises .indexError)
  | h0 :: _ =>
    match env.netEquip h0 with
    | [] => ([], .raises .indexError)
    | e0 :: _ =>
      let dests := hosts ++ [e0, env.hostSite h0]
      (hosts.flatMap (latencyFor env n_ping dests), .ok ())

/-- `bandwidth(hosts)` (lines 120 to 123): an intentionally empty stub. -/
def bandwidth (_ : Env) (_ : List String) : List Event × Outcome Unit := ([], .ok ())

/-- `setup_hosts(hosts, force_deploy, no_deploy)` (lines 126 to 159).  The
deployment partitions the hosts; the survivors are sorted with the same key
as in `get_hosts`, then SSH is configured and sysbench installed, each with
a fatal check. -/
def setup_hosts (env : Env) (hosts : List String) (force_deploy no_deploy : Bool) :
    List Event × Outcome (List String) :=
  let check := !force_deploy
  let num_tries := if no_deploy then 0 else 1
  let deployed := hosts.filter env.deployOk
  let undeployed := hosts.filter fun h => !env.deployOk h
  let ev0 := [Event.info "Deploying hosts", Event.deployCall hosts num_tries check] ++
    (if 0 < undeployed.length then [Event.warning undeployed] else [])
  match sortHosts deployed with
  | .error e => (ev0, .raises e)
  | .ok sorted =>
    let ev1 := ev0 ++ [Event.taktuk sshConfCmd sorted]
    if env.okOf sshConfCmd sorted then
      let ev2 := ev1 ++ [Event.info "Installing sysbench", Event.taktuk aptCmd sorted]
      if env.okOf aptCmd sorted then (ev2, .ok sorted)
      else (ev2 ++ [Event.error "Unable to install sysbench"], .exits 0)
    else (ev1 ++ [Event.error "Unable to configure SSH"], .exits 0)

/-- `_default_job(job_name, cluster, walltime)` (lines 189 to 203): find a
free slot and submit one new reservation of job type `deploy` carrying the
given name; returns `oarsub(jobs_specs)[0]`. -/
def _default_job (env : Env) (job_name cluster walltime : String) :
    List Event × (Nat × String) :=
  ([Event.info "No job running, making a reservation",
    Event.oarsub job_name "deploy" (resourcesStr cluster env.slotNodes) walltime],
   env.oarsubResult)

/-- `get_hosts(job_name, cluster, walltime)` (lines 162 to 177): reuse the
job of that name when the query returns a truthy id, else submit a new
reservation; wait for the job, fetch the assigned nodes and sort them. -/
def get_hosts (env : Env) (job_name cluster walltime : String) :
    List Event × Outcome (List String) :=
  let q := env.getJobByName job_name
  let step :=
    if pyTruthy q.1 then (([] : List Event), (q.1.getD 0, q.2))
    else
      let r := _default_job env job_name cluster walltime
      (r.1 ++ [Event.info "Reservation done"], r.2)
  let jobId := step.2.1
  let site := step.2.2
  let ev1 := step.1 ++ [Event.info "Waiting for job start", Event.waitJob jobId site,
    Event.resourceQuery site jobId]
  match sortHosts (env.assignedNodes jobId site) with
  | .error e => (ev1, .raises e)
  | .ok sorted => (ev1 ++ [Event.info "Hosts"], .ok sorted)

/-- One iteration of the benchmark loop of `main` (lines 47 to 50): the
STARTING line, the benchmark, then the DONE line when it returned. -/
def withStartDone (name : String) (r : List Event × Outcome Unit) :
    List Event × Outcome Unit :=
  match r with
  | (tr, .ok _) => ([Event.info ("STARTING " ++ name ++ " BENCHMARK")] ++ tr ++
      [Event.info (name ++ " BENCHMARK DONE")], .ok ())
  | (tr, o) => ([Event.info ("STARTING " ++ name ++ " BENCHMARK")] ++ tr, o)

/-- The benchmark loop of `main`: the five benchmarks in order, dispatched
by name through `getattr(__main__, test)`. -/
def benchLoop (env : Env) (hosts : List String) : List Event × Outcome Unit :=
  andThen (withStartDone "cpu" (cpu env hosts)) fun _ =>
  andThen (withStartDone "memory" (memory env hosts)) fun _ =>
  andThen (withStartDone "fio" (fio env hosts)) fun _ =>
  andThen (withStartDone "latency" (latency env hosts)) fun _ =>
  withStartDone "bandwidth" (bandwidth env hosts)

/-- The run of `main` after argument parsing and log file setup (lines 45
to 50): host acquisition, host preparation, then the benchmark loop. -/
def mainRun (env : Env) (job cluster walltime : String) (forcedeploy nodeploy : Bool) :
    List Event × Outcome Unit :=
  andThen (get_hosts env job cluster walltime) fun hosts0 =>
  andThen (setup_hosts env hosts0 forcedeploy nodeploy) fun hosts =>
  benchLoop env hosts

/-- First dot-separated component of a host identifier, as read by the
sort key: `h.split('.', 1)[0]`. -/
def firstComp (h : String) : List Char := (pySplit '.' h.data).headD []

/-- The part after the first hyphen of the first component is present but
is not a decimal numeral accepted by Python `int`. -/
def badSuffix (h : String) : Bool :=
  match (pySplit '-' (firstComp h)).get? 1 with
  | none => false
  | some p1 =>
    match pyIntChars p1 with
    | .error _ => true
    | .ok _ => false

/-- Destination labels of the `LAT` log lines of a trace, in order. -/
def latDsts (evs : List Event) : List String :=
  evs.filterMap fun e =>
    match e with
    | .latLine _ d _ => some d
    | _ => none

/-- Recognize a scheduler submission event. -/
def isOarsubEv : Event → Bool
  | .oarsub _ _ _ _ => true
  | _ => false

/-- A concrete external world used for witnesses: one existing job, two
assigned nodes, every remote command succeeding. -/
def envBase : Env where
  getJobByName := fun _ => (some 42, "rennes")
  oarsubResult := (7, "reims")
  slotNodes := 3
  assignedNodes := fun _ _ => ["node-10.cluster.site", "node-2.cluster.site"]
  deployOk := fun _ => true
  okOf := fun _ _ => true
  stdoutOf := fun _ _ => "  1.234  "
  smtSize := fun _ => 8
  ramSize := fun _ => 1024
  netEquip := fun _ => ["gw-1.site.fr"]
  hostSite := fun _ => "nancy"
  shortname := fun s => String.mk (s.data.takeWhile fun c => c != '.')

/-- The world of `envBase` with every remote SSH configuration command
failing (aggregate not-ok). -/
def envSshFail : Env := { envBase with okOf := fun c _ => c != sshConfCmd }

/-- The world of `envBase` with every deployment failing. -/
def envNoDeploy : Env := { envBase with deployOk := fun _ => false }

/-- The world of `envBase` with the sysbench install failing. -/
def envAptFail : Env := { envBase with okOf := fun c _ => c != aptCmd }

/-- The world of `envBase` with the fio prepare phase failing. -/
def envFioPrepFail : Env :=
  { envBase with okOf := fun c _ => !containsS c "prepare" }

/-- The world of `envBase` with the fio cleanup phase failing. -/
def envFioCleanFail : Env :=
  { envBase with okOf := fun c _ => !containsS c "cleanup" }

/-- The world of `envBase` where the third node fails to deploy. -/
def envDeployFail3 : Env :=
  { envBase with deployOk := fun h => h != "node-3.cluster.site" }

/-- The world of `envBase` where no job of the requested name exists. -/
def envNoJob : Env := { envBase with getJobByName := fun _ => (none, "unused") }

/-- The world of `envBase` where the scheduler assigns a host whose name
does not fit the sort key (no hyphen in its first component). -/
def envBadName : Env := { envBase with assignedNodes := fun _ _ => ["gw.grid.fr"] }

/-- The world of `envBase` where hosts have no network equipment. -/
def envNoEquip : Env := { envBase with netEquip := fun _ => [] }

/-- The world of `envBase` with a third assigned node that fails to
deploy: a partial deployment with two survivors. -/
def envPartial : Env :=
  { envBase with
    assignedNodes := fun _ _ =>
      ["node-10.cluster.site", "node-2.cluster.site", "node-3.cluster.site"],
    deployOk := fun h => h != "node-3.cluster.site" }

/-! ### Lemmas about the host sort -/

theorem charListLt_cons_iff {x y : Char} {xs ys : List Char} :
    charListLt (x :: xs) (y :: ys) = true ↔ x < y ∨ (x = y ∧ charListLt xs ys = true) := by
  show (if x < y then true else if x == y then charListLt xs ys else false) = true ↔ _
  split
  · next h => simp [h]
  · next h =>
    split
    · next he =>
      have hxy : x = y := by simpa [beq_iff_eq] using he
      simp [h, hxy]
    · next he =>
      have hne : ¬x = y := by simpa [beq_iff_eq] using he
      simp [h, hne]

theorem charListLt_trans (a : List Char) : ∀ b c : List Char,
    charListLt a b = true → charListLt b c = true → charListLt a c = true := by
  induction a with
  | nil =>
    intro b c h1 h2
    cases b with
    | nil => simp [charListLt] at h1
    | cons y ys =>
      cases c with
      | nil => simp [charListLt] at h2
      | cons z zs => simp [charListLt]
  | cons x xs ih =>
    intro b c h1 h2
    cases b with
    | nil => simp [charListLt] at h1
    | cons y ys =>
      cases c with
      | nil => simp [charListLt] at h2
      | cons z zs =>
        rw [charListLt_cons_iff] at h1 h2 ⊢
        rcases h1 with h1 | ⟨rfl, h1⟩
        · rcases h2 with h2 | ⟨rfl, h2⟩
          · exact Or.inl (lt_trans h1 h2)
          · exact Or.inl h1
        · rcases h2 with h2 | ⟨rfl, h2⟩
          · exact Or.inl h2
          · exact Or.inr ⟨rfl, ih ys zs h1 h2⟩

theorem charListLt_total (a : List Char) : ∀ b : List Char,
    charListLt a b = true ∨ a = b ∨ charListLt b a = true := by
  induction a with
  | nil =>
    intro b
    cases b with
    | nil => exact Or.inr (Or.inl rfl)
    | cons y ys => exact Or.inl (by simp [charListLt])
  | cons x xs ih =>
    intro b
    cases b with
    | nil => exact Or.inr (Or.inr (by simp [charListLt]))
    | cons y ys =>
      rcases lt_trichotomy x y with h | h | h
      · exact Or.inl (charListLt_cons_iff.mpr (Or.inl h))
      · rcases ih ys with h2 | h2 | h2
        · exact Or.inl (charListLt_cons_iff.mpr (Or.inr ⟨h, h2⟩))
        · exact Or.inr (Or.inl (by rw [h, h2]))
        · exact Or.inr (Or.inr (charListLt_cons_iff.mpr (Or.inr ⟨h.symm, h2⟩)))
      · exact Or.inr (Or.inr (charListLt_cons_iff.mpr (Or.inl h)))

theorem keyLe_iff {a b : List Char × Int} :
    keyLe a b = true ↔ charListLt a.1 b.1 = true ∨ (a.1 = b.1 ∧ a.2 ≤ b.2) := by
  simp [keyLe, Bool.or_eq_true, Bool.and_eq_true, beq_iff_eq, decide_eq_true_iff]

theorem keyLe_total (a b : List Char × Int) : keyLe a b = true ∨ keyLe b a = true := by
  rcases charListLt_total a.1 b.1 with h | h | h
  · exact Or.inl (keyLe_iff.mpr (Or.inl h))
  · rcases le_total a.2 b.2 with h2 | h2
    · exact Or.inl (keyLe_iff.mpr (Or.inr ⟨h, h2⟩))
    · exact Or.inr (keyLe_iff.mpr (Or.inr ⟨h.symm, h2⟩))
  · exact Or.inr (keyLe_iff.mpr (Or.inl h))

theorem keyLe_trans {a b c : List Char × Int}
    (h1 : keyLe a b = true) (h2 : keyLe b c = true) : keyLe a c = true := by
  rcases keyLe_iff.mp h1 with h1 | ⟨e1, l1⟩
  · rcases keyLe_iff.mp h2 with h2 | ⟨e2, l2⟩
    · exact keyLe_iff.mpr (Or.inl (charListLt_trans _ _ _ h1 h2))
    · refine keyLe_iff.mpr (Or.inl ?_)
      rw [← e2]
      exact h1
  · rcases keyLe_iff.mp h2 with h2 | ⟨e2, l2⟩
    · refine keyLe_iff.mpr (Or.inl ?_)
      rw [e1]
      exact h2
    · exact keyLe_iff.mpr (Or.inr ⟨e1.trans e2, le_trans l1 l2⟩)

instance : IsTrans (String × (List Char × Int)) pairRel :=
  ⟨fun _ _ _ h1 h2 => keyLe_trans h1 h2⟩

instance : IsTotal (String × (List Char × Int)) pairRel :=
  ⟨fun a b => keyLe_total a.2 b.2⟩

theorem hostsKeys_ok_fst {hosts : List String} :
    ∀ {keyed}, hostsKeys hosts = .ok keyed → keyed.map Prod.fst = hosts := by
  induction hosts with
  | nil =>
    intro keyed h
    simp only [hostsKeys] at h
    injection h with h
    rw [← h]
    rfl
  | cons x t ih =>
    intro keyed h
    simp only [hostsKeys] at h
    cases hx : keyOfHost x with
    | error e => rw [hx] at h; cases h
    | ok k =>
      rw [hx] at h
      cases ht : hostsKeys t with
      | error e => rw [ht] at h; cases h
      | ok rest =>
        rw [ht] at h
        injection h with h
        rw [← h]
        simp [ih ht]

theorem hostsKeys_mem_ok {hosts : List String} :
    ∀ {keyed}, hostsKeys hosts = .ok keyed → ∀ p ∈ keyed, keyOfHost p.1 = .ok p.2 := by
  induction hosts with
  | nil =>
    intro keyed h p hp
    simp only [hostsKeys] at h
    injection h with h
    rw [← h] at hp
    cases hp
  | cons x t ih =>
    intro keyed h p hp
    simp only [hostsKeys] at h
    cases hx : keyOfHost x with
    | error e => rw [hx] at h; cases h
    | ok k =>
      rw [hx] at h
      cases ht : hostsKeys t with
      | error e => rw [ht] at h; cases h
      | ok rest =>
        rw [ht] at h
        injection h with h
        rw [← h] at hp
        cases hp with
        | head => exact hx
        | tail _ hp => exact ih ht p hp

theorem keysOk_iff {hosts : List String} :
    keysOk hosts = true ↔ ∀ h ∈ hosts, ∃ k, keyOfHost h = .ok k := by
  unfold keysOk
  rw [List.all_eq_true]
  constructor
  · intro H h hm
    have := H h hm
    cases hk : keyOfHost h with
    | error e => rw [hk] at this; simp at this
    | ok k => exact ⟨k, rfl⟩
  · intro H h hm
    obtain ⟨k, hk⟩ := H h hm
    rw [hk]

theorem hostsKeys_ok_of_keysOk {hosts : List String} (h : keysOk hosts = true) :
    ∃ keyed, hostsKeys hosts = .ok keyed := by
  induction hosts with
  | nil => exact ⟨[], rfl⟩
  | cons x t ih =>
    rw [keysOk_iff] at h
    obtain ⟨k, hk⟩ := h x (List.mem_cons_self x t)
    have ht : keysOk t = true := keysOk_iff.mpr fun y hy => h y (List.mem_cons_of_mem x hy)
    obtain ⟨rest, hrest⟩ := ih ht
    exact ⟨(x, k) :: rest, by simp only [hostsKeys]; rw [hk, hrest]⟩

theorem hostsKeys_error_of_mem {hosts : List String} {h0 : String} {e : PyErr}
    (hm : h0 ∈ hosts) (he : keyOfHost h0 = .error e) :
    ∃ e2, hostsKeys hosts = .error e2 := by
  induction hosts with
  | nil => cases hm
  | cons x t ih =>
    cases hm with
    | head =>
      exact ⟨e, by simp only [hostsKeys]; rw [he]⟩
    | tail _ hm =>
      cases hx : keyOfHost x with
      | error e3 => exact ⟨e3, by simp only [hostsKeys]; rw [hx]⟩
      | ok k =>
        obtain ⟨e2, h2⟩ := ih hm
        exact ⟨e2, by simp only [hostsKeys]; rw [hx, h2]⟩

/-- When every host key computes, the sort returns a permutation of its
input that is pairwise ordered by the key comparison. -/
theorem sortHosts_spec {hosts : List String} (h : keysOk hosts = true) :
    ∃ l, sortHosts hosts = .ok l ∧ l.Perm hosts ∧ l.Pairwise hostLe := by
  obtain ⟨keyed, hk⟩ := hostsKeys_ok_of_keysOk h
  refine ⟨(List.insertionSort pairRel keyed).map Prod.fst, ?_, ?_, ?_⟩
  · simp only [sortHosts]
    rw [hk]
  · have hperm := (List.perm_insertionSort pairRel keyed).map Prod.fst
    rw [hostsKeys_ok_fst hk] at hperm
    exact hperm
  · have hsorted : (List.insertionSort pairRel keyed).Pairwise pairRel :=
      List.sorted_insertionSort pairRel keyed
    have hmem : ∀ p ∈ List.insertionSort pairRel keyed, keyOfHost p.1 = .ok p.2 := by
      intro p hp
      exact hostsKeys_mem_ok hk p ((List.perm_insertionSort pairRel keyed).subset hp)
    refine List.pairwise_map.mpr ?_
    refine hsorted.imp_of_mem ?_
    intro p q hp hq hpq
    have kp : keyD p.1 = p.2 := by unfold keyD; rw [hmem p hp]
    have kq : keyD q.1 = q.2 := by unfold keyD; rw [hmem q hq]
    unfold hostLe
    rw [kp, kq]
    exact hpq

/-- A host whose key raises makes the whole sort raise. -/
theorem sortHosts_error {hosts : List String} {h0 : String} {e : PyErr}
    (hm : h0 ∈ hosts) (he : keyOfHost h0 = .error e) :
    ∃ e2, sortHosts hosts = .error e2 := by
  obtain ⟨e2, hk⟩ := hostsKeys_error_of_mem hm he
  refine ⟨e2, ?_⟩
  simp only [sortHosts]
  rw [hk]

/-! ### Lemmas about substring containment -/

theorem startsWithL_subset {p l : List Char} (h : startsWithL p l = true) :
    ∀ c ∈ p, c ∈ l := by
  induction p generalizing l with
  | nil => intro c hc; cases hc
  | cons x xs ih =>
    cases l with
    | nil => simp [startsWithL] at h
    | cons y ys =>
      simp only [startsWithL, Bool.and_eq_true, beq_iff_eq] at h
      obtain ⟨rfl, h2⟩ := h
      intro c hc
      cases hc with
      | head => exact List.mem_cons_self _ _
      | tail _ hc => exact List.mem_cons_of_mem _ (ih h2 c hc)

theorem containsSubL_subset {pat hay : List Char} (h : containsSubL pat hay = true) :
    ∀ c ∈ pat, c ∈ hay := by
  induction hay with
  | nil =>
    simp only [containsSubL, List.isEmpty_iff] at h
    subst h
    intro c hc
    cases hc
  | cons y ys ih =>
    simp only [containsSubL, Bool.or_eq_true] at h
    rcases h with h | h
    · exact startsWithL_subset h
    · intro c hc
      exact List.mem_cons_of_mem _ (ih h c hc)

theorem containsSubL_append_right (a : List Char) {pat b : List Char}
    (h : containsSubL pat b = true) : containsSubL pat (a ++ b) = true := by
  induction a with
  | nil => exact h
  | cons x xs ih =>
    simp only [List.cons_append, containsSubL, Bool.or_eq_true]
    exact Or.inr ih

/-- A list without the separator splits into itself as the single group. -/
theorem pySplit_no_sep {sep : Char} {l : List Char} (h : sep ∉ l) :
    pySplit sep l = [l] := by
  induction l with
  | nil => rfl
  | cons c rest ih =>
    have hc : ¬(c == sep) = true := by
      simp only [beq_iff_eq]
      intro hceq
      exact h (hceq ▸ List.mem_cons_self c rest)
    have hr : sep ∉ rest := fun hm => h (List.mem_cons_of_mem c hm)
    simp only [pySplit, if_neg hc, ih hr]

/-! ### Claim theorems -/

/-- C1.  For every host output line containing "execution time", the
extraction pipeline shared by the cpu, memory and fio benchmarks
(`grep "execution time" | awk` printing field 4 `| cut -d / -f 1`) yields
the fourth whitespace-delimited field of that line truncated at the first
slash, and drops all other lines; on the concrete line
`"    execution time (avg/stddev):    1.234/0.01"` it yields `"1.234"`. -/
theorem c1_pipeline_extraction :
    (∀ lines : List String,
      sysGrepPipeline lines =
        ((lines.filter fun l => containsS l "execution time").map specExtract)) ∧
    sysGrepPipeline ["    execution time (avg/stddev):    1.234/0.01"] = ["1.234"] := by
  constructor
  · intro lines
    unfold sysGrepPipeline cutStage awkStage grepStage specExtract
    rw [List.map_map]
    rfl
  · decide

/-- C2.  The host sort shared by `get_hosts` and `setup_hosts` orders any
list of parseable host identifiers ascending by the pair (prefix before
the first hyphen, integer value of the suffix): it returns a permutation
of its input that is pairwise ordered by the key comparison.  On
`["node-10.cluster.site", "node-2.cluster.site"]` it returns
`["node-2.cluster.site", "node-10.cluster.site"]`. -/
theorem c2_host_sort_ordered :
    (∀ hosts : List String, keysOk hosts = true →
      ∃ l, sortHosts hosts = .ok l ∧ l.Perm hosts ∧ l.Pairwise hostLe) ∧
    sortHosts ["node-10.cluster.site", "node-2.cluster.site"] =
      .ok ["node-2.cluster.site", "node-10.cluster.site"] :=
  ⟨fun _ h => sortHosts_spec h, by decide⟩

/-- Witness for C2 at the concrete input of the claim. -/
theorem c2_host_sort_ordered_witness :
    keysOk ["node-10.cluster.site", "node-2.cluster.site"] = true ∧
    ∃ l, sortHosts ["node-10.cluster.site", "node-2.cluster.site"] = .ok l ∧
      l.Perm ["node-10.cluster.site", "node-2.cluster.site"] ∧ l.Pairwise hostLe :=
  ⟨by decide, c2_host_sort_ordered.1 _ (by decide)⟩

/-- C8.  The fio command template substituted with action `prepare` and an
empty grep slot contains `--file-test-mode=seqwr` and does not contain the
`_sys_grep` extraction suffix; substituted with action `run` and the
`_sys_grep` slot it contains that suffix.  The thread count is a decimal
rendering, hence contains no pipe character (stated as a hypothesis). -/
theorem c8_fio_template (n : Nat) (hn : '|' ∉ (toString n).data) :
    containsS (fioCmd n "prepare" "") "--file-test-mode=seqwr" = true ∧
    containsS (fioCmd n "prepare" "") _sys_grep = false ∧
    containsS (fioCmd n "run" _sys_grep) _sys_grep = true := by
  refine ⟨?_, ?_, ?_⟩
  · show containsSubL _ (fioCmd n "prepare" "").data = true
    simp only [fioCmd, String.data_append, List.append_assoc]
    exact containsSubL_append_right _ (containsSubL_append_right _ (by decide))
  · have key : '|' ∉ (fioCmd n "prepare" "").data := by
      simp only [fioCmd, String.data_append, List.append_assoc, List.mem_append]
      intro hc
      rcases hc with h | h | h | h | h
      · exact absurd h (by decide)
      · exact hn h
      · exact absurd h (by decide)
      · exact absurd h (by decide)
      · exact absurd h (by decide)
    cases hb : containsS (fioCmd n "prepare" "") _sys_grep with
    | false => rfl
    | true =>
      have hsub : containsSubL _sys_grep.data (fioCmd n "prepare" "").data = true := hb
      exact (key (containsSubL_subset hsub '|' (by decide))).elim
  · show containsSubL _sys_grep.data (fioCmd n "run" _sys_grep).data = true
    simp only [fioCmd, String.data_append, List.append_assoc]
    exact containsSubL_append_right _ (containsSubL_append_right _ (by decide))

/-- Witness for C8 at the concrete thread count 8. -/
theorem c8_fio_template_witness :
    '|' ∉ (toString 8).data ∧
    (containsS (fioCmd 8 "prepare" "") "--file-test-mode=seqwr" = true ∧
     containsS (fioCmd 8 "prepare" "") _sys_grep = false ∧
     containsS (fioCmd 8 "run" _sys_grep) _sys_grep = true) :=
  ⟨by decide, c8_fio_template 8 (by decide)⟩

/-- C9.  Every working benchmark reads an attribute of the first host (or
builds destinations from it) before anything else: on an empty host list
the cpu, memory, fio and latency benchmarks all raise `IndexError`
immediately, whatever the external world looks like. -/
theorem c9_empty_hosts_raise (env : Env) :
    cpu env [] = ([], .raises .indexError) ∧
    memory env [] = ([], .raises .indexError) ∧
    fio env [] = ([], .raises .indexError) ∧
    latency env [] = ([], .raises .indexError) :=
  ⟨rfl, rfl, rfl, rfl⟩

/-- C10.  The host sort key is partial: a host identifier whose first
dot-separated component has no hyphen (an `IndexError` on the `[1]`
indexing), or whose part after the first hyphen is not a decimal numeral
(a `ValueError` in `int`), makes the sort of any list containing it raise
instead of returning an ordered list. -/
theorem keyOfHost_indexError {h : String}
    (hp : (pySplit '-' (firstComp h)).get? 1 = none) :
    keyOfHost h = .error .indexError := by
  simp only [keyOfHost]
  split
  · rfl
  · next p1 heq =>
    unfold firstComp at hp
    rw [hp] at heq
    cases heq

theorem keyOfHost_intError {h : String} {p1 : List Char} {e : PyErr}
    (hp : (pySplit '-' (firstComp h)).get? 1 = some p1)
    (hi : pyIntChars p1 = .error e) :
    keyOfHost h = .error e := by
  simp only [keyOfHost]
  split
  · next heq =>
    unfold firstComp at hp
    rw [heq] at hp
    cases hp
  · next q1 heq =>
    unfold firstComp at hp
    rw [heq] at hp
    injection hp with hq
    subst hq
    split
    · next e1 hi2 =>
      rw [hi] at hi2
      injection hi2 with he
      rw [he]
    · next n hi2 =>
      rw [hi] at hi2
      cases hi2

theorem c10_malformed_host_sort_raises (h0 : String) (hosts : List String)
    (hbad : '-' ∉ firstComp h0 ∨ badSuffix h0 = true) (hm : h0 ∈ hosts) :
    ∃ e, sortHosts hosts = .error e := by
  have hkey : ∃ e0, keyOfHost h0 = .error e0 := by
    rcases hbad with hb | hb
    · refine ⟨.indexError, keyOfHost_indexError ?_⟩
      rw [show firstComp h0 = (pySplit '.' h0.data).headD [] from rfl] at hb ⊢
      rw [pySplit_no_sep hb]
      rfl
    · unfold badSuffix at hb
      cases hp : (pySplit '-' (firstComp h0)).get? 1 with
      | none => rw [hp] at hb; cases hb
      | some p1 =>
        rw [hp] at hb
        cases hi : pyIntChars p1 with
        | ok k => simp only [hi] at hb; cases hb
        | error e0 => exact ⟨e0, keyOfHost_intError hp hi⟩
  obtain ⟨e0, he0⟩ := hkey
  exact sortHosts_error hm he0

/-- Witness for C10: a gateway-style name with no hyphen breaks the sort. -/
theorem c10_malformed_host_sort_raises_witness :
    ('-' ∉ firstComp "gw.grid.fr" ∨ badSuffix "gw.grid.fr" = true) ∧
    "gw.grid.fr" ∈ ["gw.grid.fr", "node-2.cluster.site"] ∧
    ∃ e, sortHosts ["gw.grid.fr", "node-2.cluster.site"] = .error e :=
  ⟨Or.inl (by decide), by decide,
    c10_malformed_host_sort_raises "gw.grid.fr" _ (Or.inl (by decide)) (by decide)⟩

/-! ### Lemmas for the latency and setup claims -/

theorem latDsts_map_latLine {s k : String} {f : String → String} (l : List String) :
    latDsts (l.map fun d => Event.latLine s k (f d)) = List.replicate l.length k := by
  induction l with
  | nil => rfl
  | cons x xs ih =>
    simp only [List.map_cons, latDsts, List.filterMap_cons] at ih ⊢
    rw [ih]
    rfl

theorem latDsts_taktukCmds_cons {cmds hs : List String} {evs : List Event} :
    latDsts (Event.taktukCmds cmds hs :: evs) = latDsts evs := by
  simp only [latDsts, List.filterMap_cons]

/-- C5.  In the latency benchmark the destination written in every
`LAT source->destination` line of a given source is the leaked inner-loop
variable: the last element of `dests` (the site of the first host), which
when distinct from the source is also the last destination distinct from
the source.  It therefore does not vary with the process being reported,
although the processes ping the distinct filtered destinations. -/
theorem c5_latency_label_leak (env : Env) (hosts : List String) (h0 : String)
    (rest : List String) (e0 : String) (er : List String) (c : String)
    (dests : List String)
    (hh : hosts = h0 :: rest) (hne : env.netEquip h0 = e0 :: er)
    (hd : dests = hosts ++ [e0, env.hostSite h0])
    (hsite : env.hostSite h0 ≠ c) :
    latency env hosts = (hosts.flatMap (latencyFor env 10 dests), .ok ()) ∧
    latDsts (latencyFor env 10 dests c) =
      List.replicate ((dests.filter fun d => d != c).length)
        (env.shortname (dests.getLastD "")) ∧
    dests.getLastD "" = env.hostSite h0 ∧
    (dests.filter fun d => d != c).getLastD "" = env.hostSite h0 := by
  subst hh
  subst hd
  have hsplit : (h0 :: rest) ++ [e0, env.hostSite h0] =
      ((h0 :: rest) ++ [e0]) ++ [env.hostSite h0] := by simp
  refine ⟨?_, ?_, ?_, ?_⟩
  · simp only [latency, hne]
  · simp only [latencyFor, List.singleton_append]
    rw [latDsts_taktukCmds_cons, latDsts_map_latLine]
  · rw [hsplit]
    exact List.getLastD_concat _ _ _
  · rw [hsplit, List.filter_append]
    have hone : List.filter (fun d => d != c) [env.hostSite h0] = [env.hostSite h0] := by
      have hb : (env.hostSite h0 != c) = true := bne_iff_ne.mpr hsite
      simp [List.filter, hb]
    rw [hone]
    exact List.getLastD_concat _ _ _

/-- Witness for C5: with two hosts, a gateway and the site "nancy", the
source pings three distinct destinations but all three log lines carry the
same label "nancy". -/
theorem c5_latency_label_leak_witness :
    latDsts (latencyFor envBase 10
      ["node-1.cluster.site", "node-2.cluster.site", "gw-1.site.fr", "nancy"]
      "node-1.cluster.site") = ["nancy", "nancy", "nancy"] := by
  have h := c5_latency_label_leak envBase
    ["node-1.cluster.site", "node-2.cluster.site"] "node-1.cluster.site"
    ["node-2.cluster.site"] "gw-1.site.fr" [] "node-1.cluster.site"
    ["node-1.cluster.site", "node-2.cluster.site", "gw-1.site.fr", "nancy"]
    rfl rfl (by decide) (by decide)
  rw [h.2.1]
  decide

/-- Host preparation succeeds on the survivors: the returned list is the
sorted deployed subset, and a warning names the undeployed hosts when
there are any. -/
theorem setupHostsOk {env : Env} {hosts : List String} {fd nd : Bool}
    (hk : keysOk (hosts.filter env.deployOk) = true)
    (hssh : ∀ hs, env.okOf sshConfCmd hs = true)
    (hapt : ∀ hs, env.okOf aptCmd hs = true) :
    ∃ l, (setup_hosts env hosts fd nd).2 = .ok l ∧
      sortHosts (hosts.filter env.deployOk) = .ok l ∧
      l.Perm (hosts.filter env.deployOk) ∧ l.Pairwise hostLe ∧
      ((hosts.filter fun h => !env.deployOk h) ≠ [] →
        Event.warning (hosts.filter fun h => !env.deployOk h) ∈
          (setup_hosts env hosts fd nd).1) := by
  obtain ⟨l, hsort, hperm, hpair⟩ := sortHosts_spec hk
  refine ⟨l, ?_, hsort, hperm, hpair, ?_⟩
  · simp only [setup_hosts, hsort, hssh, hapt, if_true]
  · intro hund
    simp only [setup_hosts, hsort, hssh, hapt, if_true]
    have hlen : 0 < (hosts.filter fun h => !env.deployOk h).length :=
      List.length_pos.mpr hund
    simp [hlen]

/-- C6.  `setup_hosts` returns exactly the hosts that deployed
successfully, sorted with the shared (prefix, numeric suffix) key, and
logs a warning naming every undeployed host; execution continues normally
with the reduced set. -/
theorem c6_setup_returns_sorted_deployed (env : Env) (hosts : List String)
    (fd nd : Bool)
    (hk : keysOk (hosts.filter env.deployOk) = true)
    (hssh : ∀ hs, env.okOf sshConfCmd hs = true)
    (hapt : ∀ hs, env.okOf aptCmd hs = true) :
    ∃ l, (setup_hosts env hosts fd nd).2 = .ok l ∧
      sortHosts (hosts.filter env.deployOk) = .ok l ∧
      l.Perm (hosts.filter env.deployOk) ∧ l.Pairwise hostLe ∧
      ((hosts.filter fun h => !env.deployOk h) ≠ [] →
        Event.warning (hosts.filter fun h => !env.deployOk h) ∈
          (setup_hosts env hosts fd nd).1) :=
  setupHostsOk hk hssh hapt

/-- Witness for C6: three requested hosts, one deployment failure, a
returned sorted list of length two, and the warning naming the failed
host present in the trace. -/
theorem c6_setup_returns_sorted_deployed_witness :
    keysOk (["node-3.cluster.site", "node-1.cluster.site",
      "node-2.cluster.site"].filter envDeployFail3.deployOk) = true ∧
    (∃ l, (setup_hosts envDeployFail3 ["node-3.cluster.site", "node-1.cluster.site",
        "node-2.cluster.site"] false false).2 = .ok l ∧
      sortHosts (["node-3.cluster.site", "node-1.cluster.site",
        "node-2.cluster.site"].filter envDeployFail3.deployOk) = .ok l ∧
      l.Perm (["node-3.cluster.site", "node-1.cluster.site",
        "node-2.cluster.site"].filter envDeployFail3.deployOk) ∧ l.Pairwise hostLe ∧
      ((["node-3.cluster.site", "node-1.cluster.site",
        "node-2.cluster.site"].filter fun h => !envDeployFail3.deployOk h) ≠ [] →
        Event.warning (["node-3.cluster.site", "node-1.cluster.site",
          "node-2.cluster.site"].filter fun h => !envDeployFail3.deployOk h) ∈
          (setup_hosts envDeployFail3 ["node-3.cluster.site", "node-1.cluster.site",
            "node-2.cluster.site"] false false).1)) ∧
    (setup_hosts envDeployFail3 ["node-3.cluster.site", "node-1.cluster.site",
      "node-2.cluster.site"] false false).2 =
      .ok ["node-1.cluster.site", "node-2.cluster.site"] ∧
    Event.warning ["node-3.cluster.site"] ∈
      (setup_hosts envDeployFail3 ["node-3.cluster.site", "node-1.cluster.site",
        "node-2.cluster.site"] false false).1 :=
  ⟨by decide,
   c6_setup_returns_sorted_deployed envDeployFail3 _ false false (by decide)
     (fun _ => rfl) (fun _ => rfl),
   by decide, by decide⟩

/-- C7.  When the scheduler query for the job name returns a truthy job
id, `get_hosts` submits nothing and uses the queried (job id, site) pair
directly for the wait and the resource query; a deploy-type submission
carrying the job name happens exactly when the query is falsy. -/
theorem c7_reservation_reuse (env : Env) (jn cl wt : String) :
    (pyTruthy (env.getJobByName jn).1 = true →
      (∀ e ∈ (get_hosts env jn cl wt).1, isOarsubEv e = false) ∧
      Event.waitJob ((env.getJobByName jn).1.getD 0) (env.getJobByName jn).2 ∈
        (get_hosts env jn cl wt).1 ∧
      Event.resourceQuery (env.getJobByName jn).2 ((env.getJobByName jn).1.getD 0) ∈
        (get_hosts env jn cl wt).1) ∧
    (pyTruthy (env.getJobByName jn).1 = false →
      Event.oarsub jn "deploy" (resourcesStr cl env.slotNodes) wt ∈
        (get_hosts env jn cl wt).1) := by
  constructor
  · intro hq
    cases hsort : sortHosts (env.assignedNodes ((env.getJobByName jn).1.getD 0)
        (env.getJobByName jn).2) with
    | error e =>
      simp only [get_hosts, hq, if_true, List.nil_append] at *
      rw [hsort]
      refine ⟨?_, ?_, ?_⟩
      · intro ev he
        simp only [List.mem_cons, List.not_mem_nil, or_false] at he
        rcases he with rfl | rfl | rfl <;> rfl
      · simp
      · simp
    | ok sorted =>
      simp only [get_hosts, hq, if_true, List.nil_append] at *
      rw [hsort]
      refine ⟨?_, ?_, ?_⟩
      · intro ev he
        simp only [List.mem_append, List.mem_cons, List.not_mem_nil, or_false] at he
        rcases he with (rfl | rfl | rfl) | rfl <;> rfl
      · simp
      · simp
  · intro hq
    cases hsort : sortHosts (env.assignedNodes env.oarsubResult.1 env.oarsubResult.2) with
    | error e =>
      simp only [get_hosts, _default_job, hq, Bool.false_eq_true, if_false]
      rw [hsort]
      simp
    | ok sorted =>
      simp only [get_hosts, _default_job, hq, Bool.false_eq_true, if_false]
      rw [hsort]
      simp

/-- Witness for C7 at a world holding an existing job (42, rennes): no
submission event appears and the queried pair is used. -/
theorem c7_reservation_reuse_witness :
    pyTruthy (envBase.getJobByName "check_node_perf").1 = true ∧
    ((∀ e ∈ (get_hosts envBase "check_node_perf" "stremi" "3:00:00").1,
        isOarsubEv e = false) ∧
     Event.waitJob 42 "rennes" ∈
        (get_hosts envBase "check_node_perf" "stremi" "3:00:00").1 ∧
     Event.resourceQuery "rennes" 42 ∈
        (get_hosts envBase "check_node_perf" "stremi" "3:00:00").1) := by
  refine ⟨by decide, ?_⟩
  have h := (c7_reservation_reuse envBase "check_node_perf" "stremi" "3:00:00").1 (by decide)
  exact ⟨h.1, h.2.1, h.2.2⟩

/-! ### Lemmas about sequencing and the main flow -/

theorem andThen_ok {α β : Type} {x : List Event × Outcome α} {f : α → List Event × Outcome β}
    {a : α} (h : x.2 = .ok a) : andThen x f = (x.1 ++ (f a).1, (f a).2) := by
  obtain ⟨tr, o⟩ := x
  cases o with
  | ok b => injection h with hba; subst hba; rfl
  | exits code => cases h
  | raises e => cases h

theorem andThen_exits {α β : Type} {x : List Event × Outcome α}
    {f : α → List Event × Outcome β} {c : Nat} (h : x.2 = .exits c) :
    andThen x f = (x.1, .exits c) := by
  obtain ⟨tr, o⟩ := x
  cases o with
  | ok b => cases h
  | exits code => injection h with hc; subst hc; rfl
  | raises e => cases h

theorem andThen_raises {α β : Type} {x : List Event × Outcome α}
    {f : α → List Event × Outcome β} {e : PyErr} (h : x.2 = .raises e) :
    andThen x f = (x.1, .raises e) := by
  obtain ⟨tr, o⟩ := x
  cases o with
  | ok b => cases h
  | exits code => cases h
  | raises e2 => injection h with he; subst he; rfl

theorem andThen_snd_ok {α β : Type} {x : List Event × Outcome α}
    {f : α → List Event × Outcome β} {a : α} (h : x.2 = .ok a) :
    (andThen x f).2 = (f a).2 := by rw [andThen_ok h]

theorem andThen_snd_exits {α β : Type} {x : List Event × Outcome α}
    {f : α → List Event × Outcome β} {c : Nat} (h : x.2 = .exits c) :
    (andThen x f).2 = .exits c := by rw [andThen_exits h]

theorem andThen_snd_raises {α β : Type} {x : List Event × Outcome α}
    {f : α → List Event × Outcome β} {e : PyErr} (h : x.2 = .raises e) :
    (andThen x f).2 = .raises e := by rw [andThen_raises h]

theorem withStartDone_snd (name : String) (r : List Event × Outcome Unit) :
    (withStartDone name r).2 = r.2 := by
  obtain ⟨tr, o⟩ := r
  cases o <;> rfl

theorem keysOk_of_perm {l m : List String} (hp : l.Perm m) (h : keysOk m = true) :
    keysOk l = true := by
  rw [keysOk_iff] at h ⊢
  intro x hx
  exact h x (hp.subset hx)

theorem keysOk_filter {l : List String} {p : String → Bool} (h : keysOk l = true) :
    keysOk (l.filter p) = true := by
  rw [keysOk_iff] at h ⊢
  intro x hx
  exact h x (List.mem_of_mem_filter hx)

/-- Host acquisition returns some sorted host list permuting the assigned
nodes of the job that was used, whenever all assigned names parse. -/
theorem getHostsOk {env : Env} {jn cl wt : String}
    (hk : ∀ jid site, keysOk (env.assignedNodes jid site) = true) :
    ∃ l jid site, (get_hosts env jn cl wt).2 = .ok l ∧
      l.Perm (env.assignedNodes jid site) := by
  by_cases hq : pyTruthy (env.getJobByName jn).1 = true
  · obtain ⟨l, hsort, hperm, _⟩ :=
      sortHosts_spec (hk ((env.getJobByName jn).1.getD 0) (env.getJobByName jn).2)
    refine ⟨l, _, _, ?_, hperm⟩
    simp only [get_hosts, hq, if_true]
    rw [hsort]
  · rw [Bool.not_eq_true] at hq
    obtain ⟨l, hsort, hperm, _⟩ := sortHosts_spec (hk env.oarsubResult.1 env.oarsubResult.2)
    refine ⟨l, _, _, ?_, hperm⟩
    simp only [get_hosts, _default_job, hq, Bool.false_eq_true, if_false]
    rw [hsort]

/-- Host preparation exits (status 0) when SSH configuration fails. -/
theorem setupSshFail {env : Env} {hosts : List String} {fd nd : Bool}
    (hk : keysOk (hosts.filter env.deployOk) = true)
    (hssh : ∀ hs, env.okOf sshConfCmd hs = false) :
    (setup_hosts env hosts fd nd).2 = .exits 0 := by
  obtain ⟨l, hsort, _, _⟩ := sortHosts_spec hk
  simp only [setup_hosts, hsort, hssh, Bool.false_eq_true, if_false]

/-- Host preparation exits (status 0) when the package install fails. -/
theorem setupAptFail {env : Env} {hosts : List String} {fd nd : Bool}
    (hk : keysOk (hosts.filter env.deployOk) = true)
    (hssh : ∀ hs, env.okOf sshConfCmd hs = true)
    (hapt : ∀ hs, env.okOf aptCmd hs = false) :
    (setup_hosts env hosts fd nd).2 = .exits 0 := by
  obtain ⟨l, hsort, _, _⟩ := sortHosts_spec hk
  simp only [setup_hosts, hsort, hssh, hapt, if_true, Bool.false_eq_true, if_false]

/-- A failing fio prepare phase on a nonempty host list raises
`AttributeError` while building the error message. -/
theorem fioPrepFail {env : Env} {h0 : String} {t : List String}
    (hprep : env.okOf (fioCmd (env.smtSize h0) "prepare" "") (h0 :: t) = false) :
    (fio env (h0 :: t)).2 = .raises .attributeError := by
  simp only [fio, hprep, Bool.false_eq_true, if_false]
  rfl

/-- A failing fio cleanup phase on a nonempty host list raises
`AttributeError` while building the error message. -/
theorem fioCleanFail {env : Env} {h0 : String} {t : List String}
    (hprep : env.okOf (fioCmd (env.smtSize h0) "prepare" "") (h0 :: t) = true)
    (hclean : env.okOf (fioCmd (env.smtSize h0) "cleanup" "") (h0 :: t) = false) :
    (fio env (h0 :: t)).2 = .raises .attributeError := by
  simp only [fio, hprep, if_true, hclean, Bool.false_eq_true, if_false]
  rfl

/-- fio returns normally when prepare and cleanup succeed. -/
theorem fioAllOk {env : Env} {h0 : String} {t : List String}
    (hprep : env.okOf (fioCmd (env.smtSize h0) "prepare" "") (h0 :: t) = true)
    (hclean : env.okOf (fioCmd (env.smtSize h0) "cleanup" "") (h0 :: t) = true) :
    (fio env (h0 :: t)).2 = .ok () := by
  simp only [fio, hprep, hclean, if_true]

theorem benchLoopFioRaises {env : Env} {h0 : String} {t : List String} {e : PyErr}
    (hf : (fio env (h0 :: t)).2 = .raises e) :
    (benchLoop env (h0 :: t)).2 = .raises e := by
  have c1 : (withStartDone "cpu" (cpu env (h0 :: t))).2 = .ok () := by
    rw [withStartDone_snd]; rfl
  have c2 : (withStartDone "memory" (memory env (h0 :: t))).2 = .ok () := by
    rw [withStartDone_snd]; rfl
  have c3 : (withStartDone "fio" (fio env (h0 :: t))).2 = .raises e := by
    rw [withStartDone_snd]; exact hf
  unfold benchLoop
  rw [andThen_snd_ok c1, andThen_snd_ok c2, andThen_snd_raises c3]

theorem benchLoopAllOk {env : Env} {h0 : String} {t : List String}
    (hfio : (fio env (h0 :: t)).2 = .ok ())
    (hnet : env.netEquip h0 ≠ []) :
    (benchLoop env (h0 :: t)).2 = .ok () := by
  have c1 : (withStartDone "cpu" (cpu env (h0 :: t))).2 = .ok () := by
    rw [withStartDone_snd]; rfl
  have c2 : (withStartDone "memory" (memory env (h0 :: t))).2 = .ok () := by
    rw [withStartDone_snd]; rfl
  have c3 : (withStartDone "fio" (fio env (h0 :: t))).2 = .ok () := by
    rw [withStartDone_snd]; exact hfio
  have c4 : (withStartDone "latency" (latency env (h0 :: t))).2 = .ok () := by
    rw [withStartDone_snd]
    cases hne : env.netEquip h0 with
    | nil => exact absurd hne hnet
    | cons e0 er => simp only [latency, hne]
  unfold benchLoop
  rw [andThen_snd_ok c1, andThen_snd_ok c2, andThen_snd_ok c3, andThen_snd_ok c4]
  rfl

/-- The whole run exits with status 0 when SSH configuration fails. -/
theorem mainRunSshFail {env : Env} {j c w : String} {fd nd : Bool}
    (hk : ∀ jid site, keysOk (env.assignedNodes jid site) = true)
    (hssh : ∀ hs, env.okOf sshConfCmd hs = false) :
    (mainRun env j c w fd nd).2 = .exits 0 := by
  obtain ⟨l, jid, site, hget, hperm⟩ := getHostsOk hk
  have hkl : keysOk l = true := keysOk_of_perm hperm (hk jid site)
  unfold mainRun
  rw [andThen_snd_ok hget]
  exact andThen_snd_exits (setupSshFail (keysOk_filter hkl) hssh)

/-- The whole run exits with status 0 when the package install fails. -/
theorem mainRunAptFail {env : Env} {j c w : String} {fd nd : Bool}
    (hk : ∀ jid site, keysOk (env.assignedNodes jid site) = true)
    (hssh : ∀ hs, env.okOf sshConfCmd hs = true)
    (hapt : ∀ hs, env.okOf aptCmd hs = false) :
    (mainRun env j c w fd nd).2 = .exits 0 := by
  obtain ⟨l, jid, site, hget, hperm⟩ := getHostsOk hk
  have hkl : keysOk l = true := keysOk_of_perm hperm (hk jid site)
  unfold mainRun
  rw [andThen_snd_ok hget]
  exact andThen_snd_exits (setupAptFail (keysOk_filter hkl) hssh hapt)

/-- The prepared host list reaching the benchmark loop is nonempty when
every assigned-node list is nonempty and every deployment succeeds. -/
theorem mainRunBench {env : Env} {j c w : String} {fd nd : Bool}
    (hk : ∀ jid site, keysOk (env.assignedNodes jid site) = true)
    (hfil : ∀ jid site, (env.assignedNodes jid site).filter env.deployOk ≠ [])
    (hssh : ∀ hs, env.okOf sshConfCmd hs = true)
    (hapt : ∀ hs, env.okOf aptCmd hs = true) :
    ∃ h2 t2, (mainRun env j c w fd nd).2 = (benchLoop env (h2 :: t2)).2 := by
  obtain ⟨l, jid, site, hget, hperm⟩ := @getHostsOk env j c w hk
  have hkl : keysOk l = true := keysOk_of_perm hperm (hk jid site)
  obtain ⟨l2, hsetup2, _, hperm2, _, _⟩ :=
    @setupHostsOk env l fd nd (@keysOk_filter l env.deployOk hkl) hssh hapt
  have hpf : (l.filter env.deployOk).Perm
      ((env.assignedNodes jid site).filter env.deployOk) :=
    hperm.filter env.deployOk
  have hl2 : l2 ≠ [] := by
    intro h0
    subst h0
    have h1 : l.filter env.deployOk = [] := hperm2.symm.eq_nil
    rw [h1] at hpf
    exact hfil jid site hpf.symm.eq_nil
  cases hl2c : l2 with
  | nil => exact absurd hl2c hl2
  | cons h2 t2 =>
    refine ⟨h2, t2, ?_⟩
    unfold mainRun
    rw [andThen_snd_ok hget, andThen_snd_ok hsetup2, hl2c]

/-- C3.  At a concrete world where the fio prepare phase reports not-ok on
one host, the process terminates before the timed run-phase command is
issued, but not on the claimed logged-error path: building the error
message accesses `p.stout` (a typo for `p.stdout`) and raises
`AttributeError`, so the trace ends at the prepare call with no error
line logged; the run-phase command never appears.  A not-ok cleanup phase
terminates the process the same way. -/
theorem c3_fio_prepare_failure_no_run :
    (fio envFioPrepFail ["node-1.cluster.site"]).1 =
      [Event.info "Preparing FIO benchmark",
       Event.taktuk (fioCmd 8 "prepare" "") ["node-1.cluster.site"]] ∧
    (fio envFioPrepFail ["node-1.cluster.site"]).2 = .raises .attributeError ∧
    Event.taktuk (fioCmd 8 "run" _sys_grep) ["node-1.cluster.site"] ∉
      (fio envFioPrepFail ["node-1.cluster.site"]).1 ∧
    (fio envFioCleanFail ["node-1.cluster.site"]).2 = .raises .attributeError := by
  decide

/-- C4 (original claim, refuted).  On SSH configuration failure the
program terminates early, but through bare `exit()`, so the interpreter
status is 0 and not non-zero.  The success half of the claim fails too:
with every checked phase ok, the run still dies with an `IndexError` when
all deployments fail, when an assigned host name does not fit the sort
key, or when the network equipment list is empty, instead of reaching the
end of the benchmark loop. -/
theorem c4_counterexample :
    (mainRun envSshFail "check_node_perf" "stremi" "3:00:00" false false).2 = .exits 0 ∧
    finalStatus (mainRun envSshFail "check_node_perf" "stremi" "3:00:00" false false).2 = 0 ∧
    (mainRun envNoDeploy "check_node_perf" "stremi" "3:00:00" false false).2 =
      .raises .indexError ∧
    (mainRun envBadName "check_node_perf" "stremi" "3:00:00" false false).2 =
      .raises .indexError ∧
    (mainRun envNoEquip "check_node_perf" "stremi" "3:00:00" false false).2 =
      .raises .indexError := by
  decide

/-- C4 (amended).  On SSH configuration failure and on package install
failure the program terminates early with exit status 0 (bare `exit()`),
not a non-zero status; on a fio prepare failure, and likewise on a fio
cleanup failure, reached with at least one deployed host, it terminates
early with status 1 through the uncaught `AttributeError`; and in every
other execution — at least one assigned host deploys, every assigned name
parses under the sort key, the network equipment list is nonempty and the
remaining remote phases succeed — it reaches the end of the benchmark
loop and exits with status 0. -/
theorem c4_exit_status_amended :
    (∀ (env : Env) (j c w : String) (fd nd : Bool),
      (∀ jid site, keysOk (env.assignedNodes jid site) = true) →
      (∀ hs, env.okOf sshConfCmd hs = false) →
      (mainRun env j c w fd nd).2 = .exits 0 ∧
        finalStatus (mainRun env j c w fd nd).2 = 0) ∧
    (∀ (env : Env) (j c w : String) (fd nd : Bool),
      (∀ jid site, keysOk (env.assignedNodes jid site) = true) →
      (∀ hs, env.okOf sshConfCmd hs = true) →
      (∀ hs, env.okOf aptCmd hs = false) →
      (mainRun env j c w fd nd).2 = .exits 0 ∧
        finalStatus (mainRun env j c w fd nd).2 = 0) ∧
    (∀ (env : Env) (j c w : String) (fd nd : Bool),
      (∀ jid site, keysOk (env.assignedNodes jid site) = true) →
      (∀ jid site, (env.assignedNodes jid site).filter env.deployOk ≠ []) →
      (∀ hs, env.okOf sshConfCmd hs = true) →
      (∀ hs, env.okOf aptCmd hs = true) →
      (∀ n hs, env.okOf (fioCmd n "prepare" "") hs = false) →
      (mainRun env j c w fd nd).2 = .raises .attributeError ∧
        finalStatus (mainRun env j c w fd nd).2 = 1) ∧
    (∀ (env : Env) (j c w : String) (fd nd : Bool),
      (∀ jid site, keysOk (env.assignedNodes jid site) = true) →
      (∀ jid site, (env.assignedNodes jid site).filter env.deployOk ≠ []) →
      (∀ hs, env.okOf sshConfCmd hs = true) →
      (∀ hs, env.okOf aptCmd hs = true) →
      (∀ n hs, env.okOf (fioCmd n "prepare" "") hs = true) →
      (∀ n hs, env.okOf (fioCmd n "cleanup" "") hs = false) →
      (mainRun env j c w fd nd).2 = .raises .attributeError ∧
        finalStatus (mainRun env j c w fd nd).2 = 1) ∧
    (∀ (env : Env) (j c w : String) (fd nd : Bool),
      (∀ jid site, keysOk (env.assignedNodes jid site) = true) →
      (∀ jid site, (env.assignedNodes jid site).filter env.deployOk ≠ []) →
      (∀ h, env.netEquip h ≠ []) →
      (∀ cmd hs, env.okOf cmd hs = true) →
      (mainRun env j c w fd nd).2 = .ok () ∧
        finalStatus (mainRun env j c w fd nd).2 = 0) := by
  refine ⟨?_, ?_, ?_, ?_, ?_⟩
  · intro env j c w fd nd hk hssh
    have h := @mainRunSshFail env j c w fd nd hk hssh
    exact ⟨h, by rw [h]; rfl⟩
  · intro env j c w fd nd hk hssh hapt
    have h := @mainRunAptFail env j c w fd nd hk hssh hapt
    exact ⟨h, by rw [h]; rfl⟩
  · intro env j c w fd nd hk hfil hssh hapt hprep
    obtain ⟨h2, t2, hmain⟩ := @mainRunBench env j c w fd nd hk hfil hssh hapt
    have h : (mainRun env j c w fd nd).2 = .raises .attributeError := by
      rw [hmain]
      exact benchLoopFioRaises (fioPrepFail (hprep _ _))
    exact ⟨h, by rw [h]; rfl⟩
  · intro env j c w fd nd hk hfil hssh hapt hprep hclean
    obtain ⟨h2, t2, hmain⟩ := @mainRunBench env j c w fd nd hk hfil hssh hapt
    have h : (mainRun env j c w fd nd).2 = .raises .attributeError := by
      rw [hmain]
      exact benchLoopFioRaises (fioCleanFail (hprep _ _) (hclean _ _))
    exact ⟨h, by rw [h]; rfl⟩
  · intro env j c w fd nd hk hfil hnet hok
    obtain ⟨h2, t2, hmain⟩ :=
      @mainRunBench env j c w fd nd hk hfil
        (fun hs => hok _ _) (fun hs => hok _ _)
    have h : (mainRun env j c w fd nd).2 = .ok () := by
      rw [hmain]
      exact benchLoopAllOk (fioAllOk (hok _ _) (hok _ _)) (hnet h2)
    exact ⟨h, by rw [h]; rfl⟩

/-- Witness for the amended C4: the SSH failure part at a world where
every SSH configuration call fails, and the success part at a world with
a partial deployment (three assigned hosts, one deployment failure). -/
theorem c4_exit_status_amended_witness :
    ((mainRun envSshFail "check_node_perf" "stremi" "3:00:00" false false).2 = .exits 0 ∧
     finalStatus
       (mainRun envSshFail "check_node_perf" "stremi" "3:00:00" false false).2 = 0) ∧
    ((mainRun envPartial "check_node_perf" "stremi" "3:00:00" false false).2 = .ok () ∧
     finalStatus
       (mainRun envPartial "check_node_perf" "stremi" "3:00:00" false false).2 = 0) :=
  ⟨c4_exit_status_amended.1 envSshFail "check_node_perf" "stremi" "3:00:00" false false
    (fun _ _ =>
      show keysOk ["node-10.cluster.site", "node-2.cluster.site"] = true by decide)
    (fun _ => show (sshConfCmd != sshConfCmd) = false by decide),
   c4_exit_status_amended.2.2.2.2 envPartial "check_node_perf" "stremi" "3:00:00"
    false false
    (fun _ _ =>
      show keysOk ["node-10.cluster.site", "node-2.cluster.site",
        "node-3.cluster.site"] = true by decide)
    (fun _ _ =>
      show (["node-10.cluster.site", "node-2.cluster.site",
        "node-3.cluster.site"].filter envPartial.deployOk) ≠ [] by decide)
    (fun _ => show (["gw-1.site.fr"] : List String) ≠ [] by decide)
    (fun _ _ => rfl)⟩
